import Mathlib

/-!
# Verification of the `poubelle` spatial-grid prototype

Shallow embedding of the core components of `src/main.rs`:

* `PlaneDir` — the four-valued cyclic direction type with its rotation algebra
  (`rotate_diff`, `rotate`).  Rust's `i8` arithmetic is modelled on `ℤ` with
  explicit two's-complement wrapping (`i8_wrap`, reduction modulo `2^8`),
  and `rem_euclid` is Lean's `Int.emod` (always non-negative for a positive
  modulus).
* `Grid` — the generic bounds-checked 2D container.  Rust panics are modelled
  by `Except GridPanic`: the `coord_to_index` panic is `GridPanic.outOfBounds`
  and a hypothetical slice-index panic is `GridPanic.indexOutOfRange`, so the
  theorems can distinguish the failure conditions.
* `Tile` — per-direction metadata with a sparse mapping; the `HashMap` is
  modelled as a function `PlaneDir → Option DirInfo`.
* `Display` — the screen-space geometry.  Rust `f32` arithmetic is modelled
  over `ℚ` (exact arithmetic); `0.025f32` is the exact rational `1/40`.
  `Rect.contains` embeds the macroquad dependency's `Rect::contains`
  (inclusive near edges, exclusive far edges), and the Rust `as usize` cast
  of a non-negative float is `Int.toNat` of the floor.
-/

/-- The four compass directions, `#[repr(u8)]` with ordinals 0..3. -/
inductive PlaneDir where
  | north
  | east
  | south
  | west
deriving DecidableEq, Repr

/-- The numeric ordinal of a direction, i.e. the value of `d as i8`
(also `d as u8`) in the Rust source. -/
def PlaneDir.ordinal : PlaneDir → ℤ
  | .north => 0
  | .east => 1
  | .south => 2
  | .west => 3

/-- `TryFrom<u8> for PlaneDir`: succeeds exactly on 0..3. -/
def PlaneDir.try_from (v : ℕ) : Except String PlaneDir :=
  match v with
  | 0 => .ok .north
  | 1 => .ok .east
  | 2 => .ok .south
  | 3 => .ok .west
  | _ => .error "bad value for PlaneDir"

/-- `.expect("unreachable")` on the `try_from` result inside `rotate`:
the error branch is unreachable there because `rem_euclid(4)` lands in 0..3. -/
def PlaneDir.expect_dir (e : Except String PlaneDir) : PlaneDir :=
  match e with
  | .ok p => p
  | .error _ => .north

/-- Two's-complement wrapping of a mathematical integer into the `i8`
range `[-128, 127]`; models Rust release-mode overflow of `i8` addition. -/
def i8_wrap (z : ℤ) : ℤ :=
  (z + 128) % 256 - 128

/-- `PlaneDir::rotate_diff`: `(other as i8) - (self as i8)`.
The operands are in 0..3 so the subtraction cannot overflow. -/
def PlaneDir.rotate_diff (d other : PlaneDir) : ℤ :=
  other.ordinal - d.ordinal

/-- `PlaneDir::rotate`: `((self as i8) + n).rem_euclid(4) as u8`, fed to
`try_from` and unwrapped with `expect`.  The `i8` addition wraps. -/
def PlaneDir.rotate (d : PlaneDir) (n : ℤ) : PlaneDir :=
  PlaneDir.expect_dir (PlaneDir.try_from ((i8_wrap (d.ordinal + n)) % 4).toNat)

/-- `Coord`: a pair of non-negative integers (`usize` in the source). -/
structure Coord where
  x : ℕ
  y : ℕ
deriving DecidableEq, Repr

/-- `Grid<T>`: a boxed slice of optional slots plus the declared dimensions. -/
structure Grid (T : Type) where
  tile_array : List (Option T)
  width : ℕ
  height : ℕ
deriving DecidableEq

/-- The panic conditions a `Grid` operation can hit in the Rust source:
the explicit `panic!` in `coord_to_index` (out-of-bounds coordinate), and
the slice-indexing panic were the linear index ever to exceed the backing
array's length. -/
inductive GridPanic where
  | outOfBounds
  | indexOutOfRange
deriving DecidableEq, Repr

/-- `Grid::new`: a `width * height` array of `None` slots. -/
def Grid.new (T : Type) (width height : ℕ) : Grid T :=
  { tile_array := List.replicate (width * height) none
    width := width
    height := height }

/-- `Grid::maybe_coord_to_index`: row-major linear index `x + y * width`,
guarded by the bounds check `x >= width || y >= height`. -/
def Grid.maybe_coord_to_index {T : Type} (g : Grid T) (c : Coord) : Except Unit ℕ :=
  let i := c.x + c.y * g.width
  if g.width ≤ c.x ∨ g.height ≤ c.y then .error () else .ok i

/-- `Grid::coord_to_index`: unwraps `maybe_coord_to_index`, panicking
(`GridPanic.outOfBounds`) on the error case. -/
def Grid.coord_to_index {T : Type} (g : Grid T) (c : Coord) : Except GridPanic ℕ :=
  match g.maybe_coord_to_index c with
  | .ok i => .ok i
  | .error _ => .error .outOfBounds

/-- `Grid::get`: `&self.tile_array[self.coord_to_index(coord)]`.  The slice
index panic (impossible for grids built by `Grid::new`) is modelled as
`GridPanic.indexOutOfRange`. -/
def Grid.get {T : Type} (g : Grid T) (c : Coord) : Except GridPanic (Option T) :=
  match g.coord_to_index c with
  | .error e => .error e
  | .ok i =>
    match g.tile_array[i]? with
    | some v => .ok v
    | none => .error .indexOutOfRange

/-- `Grid::remove`: `self.tile_array[self.coord_to_index(coord)] = None`. -/
def Grid.remove {T : Type} (g : Grid T) (c : Coord) : Except GridPanic (Grid T) :=
  match g.coord_to_index c with
  | .error e => .error e
  | .ok i =>
    if i < g.tile_array.length
    then .ok { g with tile_array := g.tile_array.set i none }
    else .error .indexOutOfRange

/-- `Grid::add`: `self.tile_array[self.coord_to_index(coord)] = Some(t)`. -/
def Grid.add {T : Type} (g : Grid T) (c : Coord) (t : T) : Except GridPanic (Grid T) :=
  match g.coord_to_index c with
  | .error e => .error e
  | .ok i =>
    if i < g.tile_array.length
    then .ok { g with tile_array := g.tile_array.set i (some t) }
    else .error .indexOutOfRange

/-- The `Grid` representation invariant established by `Grid::new` and
preserved by `add`/`remove`: the backing array has exactly
`width * height` slots. -/
def Grid.wf {T : Type} (g : Grid T) : Prop :=
  g.tile_array.length = g.width * g.height

/-- `DirInfo`: per-direction traversal metadata. -/
structure DirInfo where
  elevation_delta : ℤ
  enterable : Bool
deriving DecidableEq, Repr

/-- `Tile`: a facing plus the sparse `HashMap<PlaneDir, DirInfo>`, modelled
as a function to `Option DirInfo` (the map's lookup). -/
structure Tile where
  facing : PlaneDir
  dir_infos : PlaneDir → Option DirInfo

/-- `Tile::DEFAULT_FACING`. -/
def Tile.DEFAULT_FACING : PlaneDir := PlaneDir.north

/-- `Tile::new`: empty mapping, default facing. -/
def Tile.new : Tile :=
  { facing := Tile.DEFAULT_FACING, dir_infos := fun _ => none }

/-- `Tile::get`: stored value if present, else the default
`DirInfo { elevation_delta: 0, enterable: true }`.  Total by construction. -/
def Tile.get (t : Tile) (dir : PlaneDir) : DirInfo :=
  match t.dir_infos dir with
  | some i => i
  | none => { elevation_delta := 0, enterable := true }

/-- macroquad's `Rect`, with `f32` fields modelled as exact rationals. -/
structure Rect where
  x : ℚ
  y : ℚ
  w : ℚ
  h : ℚ
deriving DecidableEq, Repr

/-- macroquad's `Rect::contains(point)`: inclusive on the near edges,
exclusive on the far edges (`x >= left && x < right && y < bottom && y >= top`).
This embeds the external dependency's code, which `src/main.rs` calls. -/
def Rect.contains (r : Rect) (px py : ℚ) : Prop :=
  r.x ≤ px ∧ px < r.x + r.w ∧ py < r.y + r.h ∧ r.y ≤ py

instance (r : Rect) (px py : ℚ) : Decidable (r.contains px py) := by
  unfold Rect.contains
  infer_instance

/-- `Display`: per-frame derived geometry. -/
structure Display where
  grid_rect : Rect
  tile_side_len : ℚ
  grid_size : ℕ × ℕ
deriving DecidableEq, Repr

/-- `Display::new`: margin fraction 0.025 of the screen width on each side;
`grid_rect` spans the usable fractions of both screen dimensions; the tile
side length divides the usable width by the column count (square tiles,
row count not consulted). -/
def Display.new (swidth sheight : ℚ) (x_tiles y_tiles : ℕ) : Display :=
  let margin_fraction : ℚ := 1 / 40
  let margin := swidth * margin_fraction
  let usable_fraction : ℚ := 1 - 2 * margin_fraction
  let grid_width := swidth * usable_fraction
  { grid_rect := { x := margin, y := margin, w := grid_width, h := sheight * usable_fraction }
    tile_side_len := grid_width / (x_tiles : ℚ)
    grid_size := (x_tiles, y_tiles) }

/-- `Display::get_tile_coord_from_pos`: `None` when the point is outside
`grid_rect`, else the floor of the offset from the rect origin divided by
the tile side, cast `as usize` (`Int.toNat`; the value is non-negative
whenever the guard passed and the side length is positive). -/
def Display.get_tile_coord_from_pos (d : Display) (pos : ℚ × ℚ) : Option Coord :=
  if d.grid_rect.contains pos.1 pos.2 then
    some { x := (⌊(pos.1 - d.grid_rect.x) / d.tile_side_len⌋).toNat
           y := (⌊(pos.2 - d.grid_rect.y) / d.tile_side_len⌋).toNat }
  else
    none

/-- The screen point at the center of the tile square of `c`: the square's
origin is `grid_rect.origin + c * tile_side_len` (the per-tile pixel margin
insets the drawn rectangle symmetrically, so its center is the same point). -/
def tile_center (d : Display) (c : Coord) : ℚ × ℚ :=
  (d.grid_rect.x + (c.x : ℚ) * d.tile_side_len + d.tile_side_len / 2,
   d.grid_rect.y + (c.y : ℚ) * d.tile_side_len + d.tile_side_len / 2)

/-! ## Theorems -/

/-- Wrapping into the `i8` range does not change the residue mod 4,
because `256 ≡ 0 (mod 4)`. -/
theorem i8_wrap_emod_four (z : ℤ) : i8_wrap z % 4 = z % 4 := by
  unfold i8_wrap
  omega

/-- `try_from` followed by `expect` is the identity on ordinals 0..3. -/
theorem expect_dir_try_from_ordinal (k : ℕ) (hk : k < 4) :
    (PlaneDir.expect_dir (PlaneDir.try_from k)).ordinal = k := by
  interval_cases k <;> rfl

theorem ordinal_lt_four (d : PlaneDir) : d.ordinal < 4 := by
  cases d <;> decide

theorem ordinal_nonneg (d : PlaneDir) : 0 ≤ d.ordinal := by
  cases d <;> decide

/-- Directions with equal ordinals are equal. -/
theorem ordinal_inj (d e : PlaneDir) (h : d.ordinal = e.ordinal) : d = e := by
  cases d <;> cases e <;> first | rfl | (exfalso; revert h; decide)

/-- The ordinal of `d.rotate n` is `(ordinal d + n) mod 4` (Euclidean),
for every integer `n` — the `i8` wrap is invisible modulo 4. -/
theorem rotate_ordinal (d : PlaneDir) (n : ℤ) :
    (d.rotate n).ordinal = (d.ordinal + n) % 4 := by
  unfold PlaneDir.rotate
  rw [i8_wrap_emod_four]
  have h0 : 0 ≤ (d.ordinal + n) % 4 := Int.emod_nonneg _ (by decide)
  have h4 : (d.ordinal + n) % 4 < 4 := Int.emod_lt_of_pos _ (by decide)
  have hk : ((d.ordinal + n) % 4).toNat < 4 := by omega
  rw [expect_dir_try_from_ordinal _ hk]
  omega

/-- C4: Rotation totality and periodicity.  For every direction `d` and every
`n` in the `i8` range, `d.rotate n` is defined (the embedding is total, the
wrapped `i8` sum always lands `rem_euclid(4)` in 0..3) with ordinal
`(ordinal d + n) mod 4` under Euclidean modulus, and `d.rotate n = d.rotate (n + 4)`. -/
theorem C4_rotate_total_periodic (d : PlaneDir) (n : ℤ)
    (hlo : -128 ≤ n) (hhi : n ≤ 127) :
    (d.rotate n).ordinal = (d.ordinal + n) % 4 ∧ d.rotate n = d.rotate (n + 4) := by
  refine ⟨rotate_ordinal d n, ?_⟩
  apply ordinal_inj
  rw [rotate_ordinal, rotate_ordinal]
  omega

/-- Witness for C4 at `d = East`, `n = 125` (outside `[-4,4]`, wrap-relevant
since `1 + 125` stays in `i8` but larger sums would wrap). -/
theorem C4_witness :
    (PlaneDir.east.rotate 125).ordinal = (PlaneDir.east.ordinal + 125) % 4 ∧
      PlaneDir.east.rotate 125 = PlaneDir.east.rotate (125 + 4) :=
  C4_rotate_total_periodic PlaneDir.east 125 (by decide) (by decide)

/-- C5: `rotate_diff` contract and round-trip law.  For all directions
`d1, d2`: `d1.rotate_diff d2 = ordinal d2 - ordinal d1`, a value in
`[-3, 3]` (not reduced mod 4), and `d1.rotate (d1.rotate_diff d2) = d2`. -/
theorem C5_rotate_diff_round_trip (d1 d2 : PlaneDir) :
    d1.rotate_diff d2 = d2.ordinal - d1.ordinal ∧
      -3 ≤ d1.rotate_diff d2 ∧ d1.rotate_diff d2 ≤ 3 ∧
      d1.rotate (d1.rotate_diff d2) = d2 := by
  refine ⟨rfl, ?_, ?_, ?_⟩
  · have := ordinal_lt_four d1; have := ordinal_nonneg d2
    unfold PlaneDir.rotate_diff; omega
  · have := ordinal_lt_four d2; have := ordinal_nonneg d1
    unfold PlaneDir.rotate_diff; omega
  · apply ordinal_inj
    rw [rotate_ordinal]
    unfold PlaneDir.rotate_diff
    have h0 := ordinal_nonneg d2
    have h4 := ordinal_lt_four d2
    omega

/-- The row-major linear index of a valid coordinate is within the
`width * height` backing array. -/
theorem index_lt_of_valid (w h x y : ℕ) (hx : x < w) (hy : y < h) :
    x + y * w < w * h := by
  calc x + y * w < (1 + y) * w := by rw [Nat.add_mul, Nat.one_mul]; omega
    _ ≤ h * w := Nat.mul_le_mul_right w (by omega)
    _ = w * h := Nat.mul_comm h w

/-- Distinct valid coordinates have distinct row-major indices. -/
theorem coord_index_inj (w : ℕ) (c1 c2 : Coord) (h1 : c1.x < w) (h2 : c2.x < w)
    (he : c1.x + c1.y * w = c2.x + c2.y * w) : c1 = c2 := by
  have hw : 0 < w := lt_of_le_of_lt (Nat.zero_le _) h1
  have hx : c1.x = c2.x := by
    have h := congrArg (fun t => t % w) he
    simpa [Nat.add_mul_mod_self_right, Nat.mod_eq_of_lt h1, Nat.mod_eq_of_lt h2] using h
  have hy : c1.y = c2.y := by
    have hm : c1.y * w = c2.y * w := by omega
    exact Nat.eq_of_mul_eq_mul_right hw hm
  cases c1; cases c2; simp_all

/-- `coord_to_index` on an out-of-bounds coordinate is the OutOfBounds panic. -/
theorem coord_to_index_invalid {T : Type} (g : Grid T) (c : Coord)
    (h : g.width ≤ c.x ∨ g.height ≤ c.y) :
    g.coord_to_index c = .error .outOfBounds := by
  simp [Grid.coord_to_index, Grid.maybe_coord_to_index, h]

/-- `coord_to_index` on a valid coordinate returns the row-major index. -/
theorem coord_to_index_valid {T : Type} (g : Grid T) (c : Coord)
    (hx : c.x < g.width) (hy : c.y < g.height) :
    g.coord_to_index c = .ok (c.x + c.y * g.width) := by
  have hc : ¬(g.width ≤ c.x ∨ g.height ≤ c.y) := by omega
  simp [Grid.coord_to_index, Grid.maybe_coord_to_index, hc]

/-- C6: Out-of-bounds failure.  On a well-formed grid, `get`, `remove` and
`add` fail with exactly the OutOfBounds condition on every coordinate with
`x ≥ width` or `y ≥ height`, and return normally (no OutOfBounds, no other
panic) on every coordinate with `x < width` and `y < height`. -/
theorem C6_out_of_bounds_failure {T : Type} (g : Grid T) (c : Coord) (hwf : g.wf) :
    (g.width ≤ c.x ∨ g.height ≤ c.y →
      g.get c = .error .outOfBounds ∧ g.remove c = .error .outOfBounds ∧
        ∀ t, g.add c t = .error .outOfBounds)
    ∧ (c.x < g.width → c.y < g.height →
      (∃ v, g.get c = .ok v) ∧ (∃ g2, g.remove c = .ok g2) ∧
        ∀ t, ∃ g2, g.add c t = .ok g2) := by
  constructor
  · intro h
    have hidx := coord_to_index_invalid g c h
    refine ⟨?_, ?_, fun t => ?_⟩ <;> simp [Grid.get, Grid.remove, Grid.add, hidx]
  · intro hx hy
    have hidx := coord_to_index_valid g c hx hy
    have hlen : c.x + c.y * g.width < g.tile_array.length := by
      rw [hwf]; exact index_lt_of_valid _ _ _ _ hx hy
    refine ⟨?_, ?_, fun t => ?_⟩
    · exact ⟨_, by simp [Grid.get, hidx, List.getElem?_eq_getElem hlen]; rfl⟩
    · exact ⟨_, by simp [Grid.remove, hidx, hlen]; rfl⟩
    · exact ⟨_, by simp [Grid.add, hidx, hlen]; rfl⟩

/-- Witness for C6 on a 3×4 grid: probe (1,7) fails with OutOfBounds,
probe (1,2) returns normally. -/
theorem C6_witness :
    (Grid.new ℕ 3 4).get ⟨1, 7⟩ = .error .outOfBounds ∧
      (Grid.new ℕ 3 4).get ⟨1, 2⟩ ≠ .error .outOfBounds := by
  refine ⟨((C6_out_of_bounds_failure (Grid.new ℕ 3 4) ⟨1, 7⟩ (by rfl)).1 (by decide)).1, ?_⟩
  obtain ⟨v, hv⟩ :=
    ((C6_out_of_bounds_failure (Grid.new ℕ 3 4) ⟨1, 2⟩ (by rfl)).2 (by decide) (by decide)).1
  rw [hv]
  simp

/-- C7: Add postcondition with silent overwrite and frame.  On a well-formed
grid, `add c v` at a valid coordinate returns normally (silently — the result
carries no information about a previous occupant, and no hypothesis about the
previous content of the cell is needed), afterwards `get c` yields `Some v`,
and every other valid cell reads exactly as before. -/
theorem C7_add_overwrite_frame {T : Type} (g : Grid T) (c : Coord) (v : T)
    (hwf : g.wf) (hx : c.x < g.width) (hy : c.y < g.height) :
    ∃ g2, g.add c v = .ok g2 ∧ g2.get c = .ok (some v) ∧
      ∀ c2, c2.x < g.width → c2.y < g.height → c2 ≠ c → g2.get c2 = g.get c2 := by
  have hidx := coord_to_index_valid g c hx hy
  have hlen : c.x + c.y * g.width < g.tile_array.length := by
    rw [hwf]; exact index_lt_of_valid _ _ _ _ hx hy
  refine ⟨{ g with tile_array := g.tile_array.set (c.x + c.y * g.width) (some v) },
    by simp [Grid.add, hidx, hlen], ?_, ?_⟩
  · have hidx2 := coord_to_index_valid
      { g with tile_array := g.tile_array.set (c.x + c.y * g.width) (some v) } c hx hy
    simp only [Grid.get, hidx2]
    simp [List.getElem?_set_eq_of_lt _ hlen]
  · intro c2 h2x h2y hne
    have hne_idx : c.x + c.y * g.width ≠ c2.x + c2.y * g.width := fun he =>
      hne (coord_index_inj g.width c2 c h2x hx he.symm)
    have hidxg := coord_to_index_valid g c2 h2x h2y
    have hidx2 := coord_to_index_valid
      { g with tile_array := g.tile_array.set (c.x + c.y * g.width) (some v) } c2 h2x h2y
    simp only [Grid.get, hidx2, hidxg]
    simp [List.getElem?_set_ne hne_idx]

/-- Witness for C7 on a 2×3 grid at (1,0): after adding 7, `get` yields
`Some 7`, and the untouched valid cell (0,2) still reads empty. -/
theorem C7_witness :
    ((Grid.new ℕ 2 3).add ⟨1, 0⟩ 7).map (fun g2 => g2.get ⟨1, 0⟩) = .ok (.ok (some 7)) ∧
      ((Grid.new ℕ 2 3).add ⟨1, 0⟩ 7).map (fun g2 => g2.get ⟨0, 2⟩) =
        .ok ((Grid.new ℕ 2 3).get ⟨0, 2⟩) := by
  obtain ⟨g2, h1, h2, h3⟩ :=
    C7_add_overwrite_frame (Grid.new ℕ 2 3) ⟨1, 0⟩ 7 (by rfl) (by decide) (by decide)
  rw [h1]
  exact ⟨by simp [Except.map, h2], by simp [Except.map, h3 ⟨0, 2⟩ (by decide) (by decide) (by decide)]⟩

/-- C8: Remove idempotence.  On a well-formed grid, `remove c` at a valid
coordinate returns normally (also when the cell was already empty — no
hypothesis on the previous content), leaves the cell reading empty, and a
second `remove c` returns exactly the same grid state. -/
theorem C8_remove_idempotent {T : Type} (g : Grid T) (c : Coord)
    (hwf : g.wf) (hx : c.x < g.width) (hy : c.y < g.height) :
    ∃ g2, g.remove c = .ok g2 ∧ g2.get c = .ok none ∧ g2.remove c = .ok g2 := by
  have hidx := coord_to_index_valid g c hx hy
  have hlen : c.x + c.y * g.width < g.tile_array.length := by
    rw [hwf]; exact index_lt_of_valid _ _ _ _ hx hy
  refine ⟨{ g with tile_array := g.tile_array.set (c.x + c.y * g.width) none },
    by simp [Grid.remove, hidx, hlen], ?_, ?_⟩
  · have hidx2 := coord_to_index_valid
      { g with tile_array := g.tile_array.set (c.x + c.y * g.width) none } c hx hy
    simp only [Grid.get, hidx2]
    simp [List.getElem?_set_eq_of_lt _ hlen]
  · have hidx2 := coord_to_index_valid
      { g with tile_array := g.tile_array.set (c.x + c.y * g.width) none } c hx hy
    simp only [Grid.remove, hidx2]
    simp [hlen, List.set_set]

/-- Witness for C8 on a 2×3 grid at (1,0) (an already-empty cell): `remove`
succeeds, the cell reads empty, and removing again reproduces the same state. -/
theorem C8_witness :
    ((Grid.new ℕ 2 3).remove ⟨1, 0⟩).map (fun g2 => g2.get ⟨1, 0⟩) = .ok (.ok none) ∧
      ((Grid.new ℕ 2 3).remove ⟨1, 0⟩).map (fun g2 => g2.remove ⟨1, 0⟩) =
        ((Grid.new ℕ 2 3).remove ⟨1, 0⟩).map Except.ok := by
  obtain ⟨g2, h1, h2, h3⟩ :=
    C8_remove_idempotent (Grid.new ℕ 2 3) ⟨1, 0⟩ (by rfl) (by decide) (by decide)
  rw [h1]
  exact ⟨by simp [Except.map, h2], by simp [Except.map, h3]⟩

/-- C9: Tile default lookup totality.  `Tile::get` is total over all four
directions by construction (it returns a `DirInfo` for every direction, with
no failure path), and on a freshly constructed tile — empty mapping, facing
North — it returns the default `{elevation_delta := 0, enterable := true}`
for every direction. -/
theorem C9_tile_default_lookup (d : PlaneDir) :
    Tile.new.get d = { elevation_delta := 0, enterable := true } ∧
      Tile.new.facing = PlaneDir.north := by
  exact ⟨rfl, rfl⟩

/-- C10: A freshly constructed grid is empty: `Grid::new W H` yields `None`
at every valid coordinate, and its dimensions are exactly `W` and `H`. -/
theorem C10_new_grid_empty (T : Type) (W H : ℕ) (c : Coord)
    (hx : c.x < W) (hy : c.y < H) :
    (Grid.new T W H).get c = .ok none ∧
      (Grid.new T W H).width = W ∧ (Grid.new T W H).height = H := by
  refine ⟨?_, rfl, rfl⟩
  have hidx := coord_to_index_valid (Grid.new T W H) c hx hy
  have hlen : c.x + c.y * W < W * H := index_lt_of_valid _ _ _ _ hx hy
  simp only [Grid.get, hidx]
  simp [Grid.new, List.getElem?_replicate, hlen]

/-- Witness for C10 on a 3×4 grid at its last valid cell (2,3). -/
theorem C10_witness :
    (Grid.new ℕ 3 4).get ⟨2, 3⟩ = .ok none ∧
      (Grid.new ℕ 3 4).width = 3 ∧ (Grid.new ℕ 3 4).height = 4 :=
  C10_new_grid_empty ℕ 3 4 ⟨2, 3⟩ (by decide) (by decide)

/-- Negation of macroquad rectangle containment, spelled as the four
strict/exclusive boundary conditions. -/
theorem Rect.not_contains_iff (r : Rect) (px py : ℚ) :
    ¬ r.contains px py ↔
      (px < r.x ∨ r.x + r.w ≤ px ∨ py < r.y ∨ r.y + r.h ≤ py) := by
  rw [Rect.contains]
  constructor
  · intro h
    by_contra hc
    push_neg at hc
    obtain ⟨h1, h2, h3, h4⟩ := hc
    exact h ⟨by linarith, by linarith, by linarith, by linarith⟩
  · rintro (hd | hd | hd | hd) ⟨h1, h2, h3, h4⟩ <;> linarith

/-- C3: Inverse-mapping boundary semantics.  For every `Display` and point,
`get_tile_coord_from_pos` returns `none` exactly when the point lies outside
`grid_rect`, with the far edges (`origin + size`) exclusive: any point with a
negative offset from the origin, or at/beyond `origin + size` on either axis,
yields `none`, and no point inside does. -/
theorem C3_boundary_semantics (d : Display) (pos : ℚ × ℚ) :
    d.get_tile_coord_from_pos pos = none ↔
      (pos.1 < d.grid_rect.x ∨ d.grid_rect.x + d.grid_rect.w ≤ pos.1 ∨
        pos.2 < d.grid_rect.y ∨ d.grid_rect.y + d.grid_rect.h ≤ pos.2) := by
  rw [← Rect.not_contains_iff, Display.get_tile_coord_from_pos]
  by_cases h : d.grid_rect.contains pos.1 pos.2 <;> simp [h]

/-- Flooring a natural number plus one half gives back the number. -/
theorem floor_half_add_nat (n : ℕ) : ⌊(n : ℚ) + 1 / 2⌋ = n := by
  rw [Int.floor_nat_add]
  norm_num

/-- C1 (amended): Display inverse-mapping round-trip.  For a `Display` built
from a positive screen width and a positive column count, and a coordinate
`c` with `c.x < x_tiles` and `c.y < y_tiles` whose tile center also lies
vertically inside `grid_rect` (`(c.y + 1/2) * tile_side_len < grid_rect.h` —
the extra hypothesis the counterexample forces, since `grid_rect.h` is
derived from the screen height, not from `y_tiles * tile_side_len`), the
screen point at the center of `c`'s tile maps back to `some c`. -/
theorem C1_round_trip_amended (swidth sheight : ℚ) (x_tiles y_tiles : ℕ) (c : Coord)
    (hsw : 0 < swidth) (hxt : 0 < x_tiles) (hcx : c.x < x_tiles) (hcy : c.y < y_tiles)
    (hcenter : ((c.y : ℚ) + 1 / 2) * (Display.new swidth sheight x_tiles y_tiles).tile_side_len
        < (Display.new swidth sheight x_tiles y_tiles).grid_rect.h) :
    (Display.new swidth sheight x_tiles y_tiles).get_tile_coord_from_pos
      (tile_center (Display.new swidth sheight x_tiles y_tiles) c) = some c := by
  have hxtq : (0 : ℚ) < (x_tiles : ℚ) := by exact_mod_cast hxt
  have hspos : 0 < (Display.new swidth sheight x_tiles y_tiles).tile_side_len := by
    simp only [Display.new]
    exact div_pos (by linarith) hxtq
  have hw : (Display.new swidth sheight x_tiles y_tiles).grid_rect.w =
      (x_tiles : ℚ) * (Display.new swidth sheight x_tiles y_tiles).tile_side_len := by
    simp only [Display.new]
    field_simp
    ring
  have hcxq : (c.x : ℚ) + 1 ≤ (x_tiles : ℚ) := by exact_mod_cast hcx
  have hxnn : (0 : ℚ) ≤ (c.x : ℚ) := Nat.cast_nonneg _
  have hynn : (0 : ℚ) ≤ (c.y : ℚ) := Nat.cast_nonneg _
  have hcond : (Display.new swidth sheight x_tiles y_tiles).grid_rect.contains
      (tile_center (Display.new swidth sheight x_tiles y_tiles) c).1
      (tile_center (Display.new swidth sheight x_tiles y_tiles) c).2 := by
    rw [Rect.contains]
    simp only [tile_center]
    refine ⟨?_, ?_, ?_, ?_⟩
    · nlinarith [hspos]
    · rw [hw]
      nlinarith [hspos]
    · nlinarith [hcenter]
    · nlinarith [hspos]
  rw [Display.get_tile_coord_from_pos, if_pos hcond]
  have hxeq : (tile_center (Display.new swidth sheight x_tiles y_tiles) c).1 -
      (Display.new swidth sheight x_tiles y_tiles).grid_rect.x =
      ((c.x : ℚ) + 1 / 2) * (Display.new swidth sheight x_tiles y_tiles).tile_side_len := by
    simp only [tile_center]
    ring
  have hyeq : (tile_center (Display.new swidth sheight x_tiles y_tiles) c).2 -
      (Display.new swidth sheight x_tiles y_tiles).grid_rect.y =
      ((c.y : ℚ) + 1 / 2) * (Display.new swidth sheight x_tiles y_tiles).tile_side_len := by
    simp only [tile_center]
    ring
  rw [hxeq, hyeq, mul_div_cancel_right₀ _ hspos.ne', mul_div_cancel_right₀ _ hspos.ne',
    floor_half_add_nat, floor_half_add_nat]
  cases c
  simp

/-- C1 counterexample: on a 100×100 screen with a 1×2 grid, the coordinate
(0,1) is valid (`0 < 1`, `1 < 2`) but the center of its tile lies below
`grid_rect` (tile side 95 but rect height 95), so the inverse map returns
`none`, not `some (0,1)` — the claim as stated fails. -/
theorem C1_counterexample :
    (0 : ℕ) < 1 ∧ (1 : ℕ) < 2 ∧
      (Display.new 100 100 1 2).get_tile_coord_from_pos
        (tile_center (Display.new 100 100 1 2) ⟨0, 1⟩) = none := by
  refine ⟨by decide, by decide, ?_⟩
  rw [Display.get_tile_coord_from_pos, if_neg]
  simp only [Display.new, tile_center, Rect.contains]
  norm_num

/-- Witness for C1 on a 100×100 screen with a 2×2 grid at coordinate (1,1),
whose tile center is inside `grid_rect` on both axes. -/
theorem C1_witness :
    (Display.new 100 100 2 2).get_tile_coord_from_pos
      (tile_center (Display.new 100 100 2 2) ⟨1, 1⟩) = some ⟨1, 1⟩ :=
  C1_round_trip_amended 100 100 2 2 ⟨1, 1⟩ (by norm_num) (by decide) (by decide) (by decide)
    (by simp only [Display.new]; norm_num)

/-- C2 (amended): validity of the inverse mapping's x-component.  With a
positive column count, any coordinate returned by `get_tile_coord_from_pos`
has `x < x_tiles` (containment in `grid_rect` bounds the horizontal offset by
`grid_rect.w = x_tiles * tile_side_len`).  No such bound holds for the
y-component, as the counterexample shows. -/
theorem C2_x_component_valid (swidth sheight : ℚ) (x_tiles y_tiles : ℕ) (pos : ℚ × ℚ)
    (c : Coord) (hxt : 0 < x_tiles)
    (h : (Display.new swidth sheight x_tiles y_tiles).get_tile_coord_from_pos pos = some c) :
    c.x < x_tiles := by
  rw [Display.get_tile_coord_from_pos] at h
  split at h
  case isFalse => exact absurd h (by simp)
  case isTrue hc =>
    simp only [Option.some.injEq] at h
    subst h
    simp only [Display.new, Rect.contains] at hc ⊢
    obtain ⟨h1, h2, _, _⟩ := hc
    have hwpos : 0 < swidth * (1 - 2 * (1 / 40)) := by linarith
    have hxtq : (0 : ℚ) < (x_tiles : ℚ) := by exact_mod_cast hxt
    have hs : 0 < swidth * (1 - 2 * (1 / 40)) / (x_tiles : ℚ) := div_pos hwpos hxtq
    have hq0 : 0 ≤ (pos.1 - swidth * (1 / 40)) / (swidth * (1 - 2 * (1 / 40)) / (x_tiles : ℚ)) :=
      div_nonneg (by linarith) hs.le
    have hqlt : (pos.1 - swidth * (1 / 40)) / (swidth * (1 - 2 * (1 / 40)) / (x_tiles : ℚ)) <
        (x_tiles : ℚ) := by
      have hstep : (pos.1 - swidth * (1 / 40)) / (swidth * (1 - 2 * (1 / 40)) / (x_tiles : ℚ)) <
          (swidth * (1 - 2 * (1 / 40))) / (swidth * (1 - 2 * (1 / 40)) / (x_tiles : ℚ)) :=
        (div_lt_div_iff_of_pos_right hs).mpr (by linarith)
      have hswpos : 0 < swidth := by nlinarith [hwpos]
      have hcancel : (swidth * (1 - 2 * (1 / 40))) /
          (swidth * (1 - 2 * (1 / 40)) / (x_tiles : ℚ)) = (x_tiles : ℚ) := by
        field_simp
        ring
      linarith [hstep, hcancel.le, hcancel.ge]
    have hfl : ⌊(pos.1 - swidth * (1 / 40)) /
        (swidth * (1 - 2 * (1 / 40)) / (x_tiles : ℚ))⌋ < (x_tiles : ℤ) :=
      Int.floor_lt.mpr (by push_cast; exact hqlt)
    have hfl0 : 0 ≤ ⌊(pos.1 - swidth * (1 / 40)) /
        (swidth * (1 - 2 * (1 / 40)) / (x_tiles : ℚ))⌋ :=
      Int.floor_nonneg.mpr hq0
    omega

/-- C2 counterexample: on a tall 100×1000 screen with a 1×1 grid,
`grid_rect` extends far below the single row (height 950, tile side 95), so
the in-rect point (52.5, 502.5) maps to `some (0,5)` whose y-component 5 is
not `< 1` — the full claim as stated fails. -/
theorem C2_counterexample :
    (Display.new 100 1000 1 1).get_tile_coord_from_pos (52.5, 502.5) = some ⟨0, 5⟩ ∧
      (Display.new 100 1000 1 1).grid_size.2 = 1 ∧ ¬ ((5 : ℕ) < 1) := by
  refine ⟨?_, rfl, by decide⟩
  rw [Display.get_tile_coord_from_pos, if_pos]
  · simp only [Display.new]
    norm_num
    rfl
  · simp only [Display.new, Rect.contains]
    norm_num

/-- Witness for C2's amended theorem at the counterexample's own input:
the returned coordinate (0,5) does satisfy `x < 1`. -/
theorem C2_witness : (⟨0, 5⟩ : Coord).x < 1 :=
  C2_x_component_valid 100 1000 1 1 (52.5, 502.5) ⟨0, 5⟩ (by decide)
    (by
      rw [Display.get_tile_coord_from_pos, if_pos]
      · simp only [Display.new]
        norm_num
        rfl
      · simp only [Display.new, Rect.contains]
        norm_num)
